import Mathlib

/-!
Shallow embedding of the collaboration invitation API of
`src/app/api/collaborate/invitations/route.ts` and of the receiving-side
typing-indicator handler of the team chat client component.  Database
tables are modelled as lists of rows; each route handler becomes a pure
function from a database state and the request parameters to a result
paired with the successor database state.  Database stored procedures
invoked by RPC (`can_assign_role`, `check_invitation_limit`,
`update_invitation_limit`, `create_notification`) are not part of the
repository's source tree and are modelled from the specification.
-/

inductive Role
  | owner
  | admin
  | editor
  | viewer
deriving DecidableEq

inductive InvStatus
  | pending
  | accepted
  | rejected
  | cancelled
  | expired
deriving DecidableEq

structure UserProfile where
  uid : Nat
  email : String
  full_name : String
deriving DecidableEq

structure Team where
  tid : Nat
  owner_id : Nat
deriving DecidableEq

structure Invitation where
  iid : Nat
  team_id : Nat
  inviter_id : Nat
  invitee_id : Nat
  invitee_email : String
  role : Role
  status : InvStatus
  expires_at : Nat
deriving DecidableEq

structure MemberRow where
  team_id : Nat
  user_id : Nat
  role : Role
deriving DecidableEq

structure Notification where
  target_user_id : Nat
  ntype : String
deriving DecidableEq

structure RateEntry where
  user_id : Nat
  day : Nat
  teams : List Nat
deriving DecidableEq

structure ChatRow where
  team_id : Nat
  sender : Option Nat
  content : String
deriving DecidableEq

structure DB where
  user_profiles : List UserProfile
  teams : List Team
  team_members : List MemberRow
  team_invitations : List Invitation
  notifications : List Notification
  rate_entries : List RateEntry
  chat_messages : List ChatRow
  disabled_kinds : List (Nat × String)
deriving DecidableEq

def roleRank : Role → Nat
  | Role.owner => 3
  | Role.admin => 2
  | Role.editor => 1
  | Role.viewer => 0

/-- Modelled from the spec: the `can_assign_role` stored procedure is not in
the source tree; section 4.1 specifies it as true iff the acting user is the
team owner, or the acting user's own role outranks the target role under
owner > admin > editor > viewer and the acting user holds at least admin. -/
def canAssignRole (db : DB) (teamId actingUser : Nat) (target : Role) : Bool :=
  match db.teams.find? (fun t => decide (t.tid = teamId)) with
  | none => false
  | some t =>
    if t.owner_id = actingUser then true
    else
      match db.team_members.find?
          (fun m => decide (m.team_id = teamId ∧ m.user_id = actingUser)) with
      | none => false
      | some m => decide (roleRank target < roleRank m.role ∧ roleRank Role.admin ≤ roleRank m.role)

def rateTeams (db : DB) (userId day : Nat) : List Nat :=
  match db.rate_entries.find? (fun r => decide (r.user_id = userId ∧ r.day = day)) with
  | none => []
  | some r => r.teams

/-- Modelled from the spec: the `check_invitation_limit` stored procedure is
not in the source tree; the spec says creation is rate limited exactly when
the per-(user, day) state has already reached 2 distinct teams and the
requested team is not among them. -/
def checkInvitationLimit (db : DB) (userId day teamId : Nat) : Bool :=
  decide ((rateTeams db userId day).dedup.length < 2 ∨ teamId ∈ rateTeams db userId day)

/-- Modelled from the spec: the `update_invitation_limit` stored procedure is
not in the source tree; the spec's `incrementRateCounter(userId, day, teamId)`
records the team among the distinct teams the user invited from that day. -/
def updateInvitationLimit (db : DB) (userId day teamId : Nat) : DB :=
  match db.rate_entries.find? (fun r => decide (r.user_id = userId ∧ r.day = day)) with
  | none => { db with rate_entries := ⟨userId, day, [teamId]⟩ :: db.rate_entries }
  | some _ =>
    { db with rate_entries := db.rate_entries.map (fun r =>
        if r.user_id = userId ∧ r.day = day then
          { r with teams := if teamId ∈ r.teams then r.teams else teamId :: r.teams }
        else r) }

def notifEnabled (db : DB) (userId : Nat) (kind : String) : Bool :=
  decide ((userId, kind) ∉ db.disabled_kinds)

/-- Modelled from the spec: the `create_notification` stored procedure is not
in the source tree; section 4.3's dispatcher checks the recipient's
preference gate for the kind and, when enabled, persists a notification
(silent no-op when disabled). -/
def createNotification (db : DB) (target : Nat) (kind : String) : DB :=
  if notifEnabled db target kind then
    { db with notifications := ⟨target, kind⟩ :: db.notifications }
  else db

def isWsChar (c : Char) : Bool :=
  decide (c = ' ' ∨ c = '\t' ∨ c = '\n' ∨ c = '\r' ∨ c = '\x0b' ∨ c = '\x0c')

def emailAtomOk (l : List Char) : Bool :=
  !l.isEmpty && l.all (fun c => !decide (c = '@') && !isWsChar c)

/-- The handler's email regex: one local part and one domain part separated
by a single at sign, neither containing whitespace or an at sign, and the
domain containing a dot with nonempty parts before and after it. -/
def validEmail (s : String) : Bool :=
  match s.toList.splitOn '@' with
  | [a, d] =>
    emailAtomOk a && emailAtomOk d &&
      (List.range d.length).any (fun i =>
        decide (d.getD i ' ' = '.' ∧ 1 ≤ i ∧ i + 1 < d.length))
  | _ => false

def findUserByEmail (db : DB) (e : String) : Option UserProfile :=
  db.user_profiles.find? (fun u => decide (u.email = e))

def findMember (db : DB) (teamId userId : Nat) : Option MemberRow :=
  db.team_members.find? (fun m => decide (m.team_id = teamId ∧ m.user_id = userId))

def findPendingInvitation (db : DB) (teamId inviteeId : Nat) : Option Invitation :=
  db.team_invitations.find? (fun i =>
    decide (i.team_id = teamId ∧ i.invitee_id = inviteeId ∧ i.status = InvStatus.pending))

def findInvitation (db : DB) (invId : Nat) : Option Invitation :=
  db.team_invitations.find? (fun i => decide (i.iid = invId))

inductive CreateError
  | MissingFields
  | InvalidRole
  | InvalidEmail
  | PermissionDenied
  | InvalidRecipient
  | AlreadyMember
  | DuplicatePending
  | RateLimited
  | TeamNotFound
deriving DecidableEq

inductive CreateResult
  | ok (inv : Invitation)
  | err (e : CreateError)
deriving DecidableEq

/-- Embedding of the POST handler of
`src/app/api/collaborate/invitations/route.ts` (invitation creation).  The
guards appear in the handler's order: required fields, role whitelist,
email regex, `can_assign_role`, invitee lookup, existing-member check,
duplicate-pending check, rate limit, team lookup; on success the pending
invitation row is inserted, the rate state updated, and a
`team_invitation` notification dispatched to the invitee. -/
def createInvitation (db : DB) (today userId teamId : Nat) (inviteeEmail : String)
    (role : Role) (newInvId expiresAt : Nat) : CreateResult × DB :=
  if teamId = 0 ∨ inviteeEmail = "" then (CreateResult.err CreateError.MissingFields, db)
  else if role = Role.owner then (CreateResult.err CreateError.InvalidRole, db)
  else if ¬ validEmail inviteeEmail then (CreateResult.err CreateError.InvalidEmail, db)
  else if ¬ canAssignRole db teamId userId role then
    (CreateResult.err CreateError.PermissionDenied, db)
  else
    match findUserByEmail db inviteeEmail with
    | none => (CreateResult.err CreateError.InvalidRecipient, db)
    | some invitee =>
      if (findMember db teamId invitee.uid).isSome then
        (CreateResult.err CreateError.AlreadyMember, db)
      else if (findPendingInvitation db teamId invitee.uid).isSome then
        (CreateResult.err CreateError.DuplicatePending, db)
      else if ¬ checkInvitationLimit db userId today teamId then
        (CreateResult.err CreateError.RateLimited, db)
      else
        match db.teams.find? (fun t => decide (t.tid = teamId)) with
        | none => (CreateResult.err CreateError.TeamNotFound, db)
        | some _ =>
          let inv : Invitation :=
            ⟨newInvId, teamId, userId, invitee.uid, inviteeEmail, role,
              InvStatus.pending, expiresAt⟩
          let db1 := { db with team_invitations := inv :: db.team_invitations }
          let db2 := updateInvitationLimit db1 userId today teamId
          let db3 := createNotification db2 invitee.uid "team_invitation"
          (CreateResult.ok inv, db3)

inductive RAction
  | accept
  | reject
  | cancel
deriving DecidableEq

inductive ResolveError
  | NotFound
  | PermissionDenied
  | AlreadyResolved (s : InvStatus)
  | Expired
  | MemberInsertFailed
  | UpdateFailed
deriving DecidableEq

inductive ResolveResult
  | ok (a : RAction)
  | err (e : ResolveError)
deriving DecidableEq

def setInvitationStatus (db : DB) (invId : Nat) (s : InvStatus) : DB :=
  { db with team_invitations := db.team_invitations.map (fun i =>
      if i.iid = invId then { i with status := s } else i) }

/-- Embedding of the PUT handler of
`src/app/api/collaborate/invitations/route.ts` (invitation resolution).
The guards appear in the handler's order: lookup, permission (cancel only
by the inviter, accept/reject only by the invitee), the pending-status
check, the eager pending-to-expired flip, then the action branch.  The
`memberInsertOk` and `updateOk` flags model whether the two fallible
database writes of the handler succeed; on accept the membership row is
inserted and the `member_added` notification dispatched before the
invitation-status update, exactly as in the handler. -/
def resolveInvitation (db : DB) (now userId invId : Nat) (action : RAction)
    (memberInsertOk updateOk : Bool) : ResolveResult × DB :=
  match findInvitation db invId with
  | none => (ResolveResult.err ResolveError.NotFound, db)
  | some inv =>
    if action = RAction.cancel ∧ inv.inviter_id ≠ userId then
      (ResolveResult.err ResolveError.PermissionDenied, db)
    else if (action = RAction.accept ∨ action = RAction.reject) ∧ inv.invitee_id ≠ userId then
      (ResolveResult.err ResolveError.PermissionDenied, db)
    else if inv.status ≠ InvStatus.pending then
      (ResolveResult.err (ResolveError.AlreadyResolved inv.status), db)
    else if inv.expires_at < now then
      (ResolveResult.err ResolveError.Expired, setInvitationStatus db invId InvStatus.expired)
    else
      match action with
      | RAction.accept =>
        if ¬ memberInsertOk then (ResolveResult.err ResolveError.MemberInsertFailed, db)
        else
          let db1 := { db with team_members :=
            (⟨inv.team_id, inv.invitee_id, inv.role⟩ : MemberRow) :: db.team_members }
          let db2 := createNotification db1 inv.inviter_id "member_added"
          if ¬ updateOk then (ResolveResult.err ResolveError.UpdateFailed, db2)
          else (ResolveResult.ok RAction.accept,
                setInvitationStatus db2 invId InvStatus.accepted)
      | RAction.reject =>
        let db1 := createNotification db inv.inviter_id "invitation_rejected"
        if ¬ updateOk then (ResolveResult.err ResolveError.UpdateFailed, db1)
        else (ResolveResult.ok RAction.reject,
              setInvitationStatus db1 invId InvStatus.rejected)
      | RAction.cancel =>
        let db1 := createNotification db inv.invitee_id "invitation_cancelled"
        if ¬ updateOk then (ResolveResult.err ResolveError.UpdateFailed, db1)
        else (ResolveResult.ok RAction.cancel,
              setInvitationStatus db1 invId InvStatus.cancelled)

inductive ListType
  | sent
  | received
  | allInv
deriving DecidableEq

/-- Embedding of the GET handler of
`src/app/api/collaborate/invitations/route.ts` (invitation listing): rows
are filtered by the sent/received/all direction and the optional status
filter and returned verbatim; the handler performs no expiry check. -/
def listInvitations (db : DB) (userId : Nat) (ty : ListType)
    (statusFilter : Option InvStatus) : List Invitation :=
  (db.team_invitations.filter (fun i =>
    match ty with
    | ListType.sent => decide (i.inviter_id = userId)
    | ListType.received => decide (i.invitee_id = userId)
    | ListType.allInv => decide (i.inviter_id = userId ∨ i.invitee_id = userId))).filter
    (fun i => match statusFilter with
      | none => true
      | some s => decide (i.status = s))

inductive DelError
  | MissingFields
  | NotFound
  | PermissionDenied
deriving DecidableEq

inductive DelResult
  | ok
  | err (e : DelError)
deriving DecidableEq

/-- Embedding of the DELETE handler of
`src/app/api/collaborate/invitations/route.ts`: only the inviter may hard
delete an invitation, in any status. -/
def deleteInvitation (db : DB) (userId invId : Nat) : DelResult × DB :=
  if invId = 0 then (DelResult.err DelError.MissingFields, db)
  else
    match findInvitation db invId with
    | none => (DelResult.err DelError.NotFound, db)
    | some inv =>
      if inv.inviter_id ≠ userId then (DelResult.err DelError.PermissionDenied, db)
      else (DelResult.ok,
        { db with team_invitations :=
            db.team_invitations.filter (fun i => !decide (i.iid = invId)) })

def capFirst (s : String) : String :=
  match s.toList with
  | [] => ""
  | c :: cs => String.mk (c.toUpper :: cs)

inductive AddError
  | MissingFields
  | TeamNotFound
  | AlreadyMember
deriving DecidableEq

inductive AddResult
  | ok (userId : Nat)
  | err (e : AddError)
deriving DecidableEq

/-- Embedding of the POST handler of the teams/members route (second
handler in `src/app/api/collaborate/invitations/route.ts`): the handler
performs no authentication and no authorization check; when no account
matches the email it creates a placeholder user profile with a name
generated from the email, then inserts the membership row with the
requested role and appends a system chat message. -/
def addMember (db : DB) (teamId : Nat) (email : String) (role : Role)
    (newUserId : Nat) : AddResult × DB :=
  if teamId = 0 ∨ email = "" then (AddResult.err AddError.MissingFields, db)
  else
    match db.teams.find? (fun t => decide (t.tid = teamId)) with
    | none => (AddResult.err AddError.TeamNotFound, db)
    | some _ =>
      let found := findUserByEmail db email
      let uid := match found with
        | some u => u.uid
        | none => newUserId
      let uname := match found with
        | some u => u.full_name
        | none => capFirst ((email.splitOn "@").headD "")
      let db1 := match found with
        | some _ => db
        | none =>
          { db with user_profiles :=
              (⟨newUserId, email, capFirst ((email.splitOn "@").headD "")⟩ : UserProfile)
                :: db.user_profiles }
      if (findMember db1 teamId uid).isSome then (AddResult.err AddError.AlreadyMember, db1)
      else
        let db2 := { db1 with team_members :=
          (⟨teamId, uid, role⟩ : MemberRow) :: db1.team_members }
        let db3 := { db2 with chat_messages :=
          (⟨teamId, none, uname ++ " joined the team"⟩ : ChatRow) :: db2.chat_messages }
        (AddResult.ok uid, db3)

inductive Op
  | create (today userId teamId : Nat) (email : String) (role : Role) (newInvId expiresAt : Nat)
  | resolve (now userId invId : Nat) (action : RAction) (mOk uOk : Bool)
  | del (userId invId : Nat)
  | add (teamId : Nat) (email : String) (role : Role) (newUserId : Nat)

def applyOp (db : DB) : Op → DB
  | Op.create a b c d e f g => (createInvitation db a b c d e f g).2
  | Op.resolve a b c d e f => (resolveInvitation db a b c d e f).2
  | Op.del a b => (deleteInvitation db a b).2
  | Op.add a b c d => (addMember db a b c d).2

def runOps (db : DB) (ops : List Op) : DB :=
  ops.foldl applyOp db

def pendingFor (db : DB) (t u : Nat) : List Invitation :=
  db.team_invitations.filter (fun i =>
    decide (i.team_id = t ∧ i.invitee_id = u ∧ i.status = InvStatus.pending))

def pendingCount (db : DB) (t u : Nat) : Nat :=
  (pendingFor db t u).length

def atMostOnePendingB (db : DB) : Bool :=
  db.team_invitations.all (fun i =>
    !decide (i.status = InvStatus.pending) ||
      decide (pendingCount db i.team_id i.invitee_id ≤ 1))

structure TypingTimer where
  sender : Nat
  fireAt : Nat
  pending : Bool
deriving DecidableEq

structure ChatClient where
  room : Nat
  selfId : Nat
  typing : List (Nat × Bool)
  timers : List TypingTimer
  messages : List (Nat × Nat)
deriving DecidableEq

def setAssoc (l : List (Nat × Bool)) (k : Nat) (v : Bool) : List (Nat × Bool) :=
  if l.any (fun p => decide (p.1 = k)) then
    l.map (fun p => if p.1 = k then (k, v) else p)
  else (k, v) :: l

def lookupTyping (l : List (Nat × Bool)) (k : Nat) : Bool :=
  ((l.find? (fun p => decide (p.1 = k))).map Prod.snd).getD false

def getTyping (st : ChatClient) (k : Nat) : Bool :=
  lookupTyping st.typing k

def clearTimer (ts : List TypingTimer) (k : Nat) : List TypingTimer :=
  ts.map (fun t => if t.sender = k then { t with pending := false } else t)

def setTimer (ts : List TypingTimer) (k fa : Nat) : List TypingTimer :=
  if ts.any (fun t => decide (t.sender = k)) then
    ts.map (fun t => if t.sender = k then ⟨k, fa, true⟩ else t)
  else (⟨k, fa, true⟩ : TypingTimer) :: ts

def timerFor (st : ChatClient) (k : Nat) : Option TypingTimer :=
  st.timers.find? (fun t => decide (t.sender = k))

def dueSenders (st : ChatClient) (now : Nat) : List Nat :=
  (st.timers.filter (fun t => t.pending && decide (t.fireAt ≤ now))).map TypingTimer.sender

/-- Firing of the scheduled per-sender timeouts that are due at `now`: each
due timeout's callback sets the sender's typing flag to false (the timeout
handle itself becomes inert). -/
def fireDue (st : ChatClient) (now : Nat) : ChatClient :=
  { st with
    typing := (dueSenders st now).foldl (fun acc k => setAssoc acc k false) st.typing,
    timers := st.timers.map (fun t =>
      if t.pending ∧ t.fireAt ≤ now then { t with pending := false } else t) }

/-- Embedding of the chat client's `handleTyping` socket handler: signals for
another room or from the client itself are ignored; otherwise the sender's
typing flag is set to the signalled value, any previous timeout for that
sender is cleared, and a `true` signal schedules a fresh 3000 ms timeout. -/
def handleTyping (st : ChatClient) (teamId sender : Nat) (b : Bool) (now : Nat) : ChatClient :=
  if teamId = st.room ∧ sender ≠ st.selfId then
    { st with
      typing := setAssoc st.typing sender b,
      timers :=
        if b then setTimer (clearTimer st.timers sender) sender (now + 3000)
        else clearTimer st.timers sender }
  else st

/-- Embedding of the chat client's `handleNewMessage` socket handler:
messages for another room are ignored; otherwise the message is appended
and, when a timeout handle exists for the sender, the timeout is cleared
and the sender's typing flag reset to false. -/
def handleNewMessage (st : ChatClient) (teamId sender now : Nat) : ChatClient :=
  if teamId = st.room then
    if st.timers.any (fun t => decide (t.sender = sender)) then
      { st with
        messages := (sender, now) :: st.messages,
        typing := setAssoc st.typing sender false,
        timers := clearTimer st.timers sender }
    else { st with messages := (sender, now) :: st.messages }
  else st

inductive CEvent
  | typingSig (teamId sender : Nat) (b : Bool) (time : Nat)
  | message (teamId sender : Nat) (time : Nat)
deriving DecidableEq

def eventSender : CEvent → Nat
  | CEvent.typingSig _ s _ _ => s
  | CEvent.message _ s _ => s

def stepEvent (st : ChatClient) : CEvent → ChatClient
  | CEvent.typingSig tid s b t => handleTyping (fireDue st t) tid s b t
  | CEvent.message tid s t => handleNewMessage (fireDue st t) tid s t

def runEvents (st : ChatClient) (evs : List CEvent) : ChatClient :=
  evs.foldl stepEvent st

def observeTyping (st : ChatClient) (now sender : Nat) : Bool :=
  getTyping (fireDue st now) sender

def dbEmpty : DB := ⟨[], [], [], [], [], [], [], []⟩

def dbReady : DB := ⟨[⟨20, "b@c.d", "B"⟩], [⟨1, 10⟩], [], [], [], [], [], []⟩

def invPend : Invitation := ⟨1, 1, 10, 20, "b@c.d", Role.editor, InvStatus.pending, 100⟩

def dbPend : DB := ⟨[⟨20, "b@c.d", "B"⟩], [⟨1, 10⟩], [], [invPend], [], [], [], []⟩

def invAcc : Invitation := ⟨1, 1, 10, 20, "b@c.d", Role.editor, InvStatus.accepted, 100⟩

def dbAcc : DB := ⟨[⟨20, "b@c.d", "B"⟩], [⟨1, 10⟩], [], [invAcc], [], [], [], []⟩

def invOver : Invitation := ⟨1, 1, 10, 20, "b@c.d", Role.editor, InvStatus.pending, 40⟩

def dbOver : DB := ⟨[⟨20, "b@c.d", "B"⟩], [⟨1, 10⟩], [], [invOver], [], [], [], []⟩

def dbRate : DB := ⟨[⟨20, "b@c.d", "B"⟩], [⟨3, 10⟩], [], [], [], [⟨10, 7, [1, 2]⟩], [], []⟩

theorem createNotification_team_invitations (db : DB) (t : Nat) (k : String) :
    (createNotification db t k).team_invitations = db.team_invitations := by
  unfold createNotification; split <;> rfl

theorem createNotification_team_members (db : DB) (t : Nat) (k : String) :
    (createNotification db t k).team_members = db.team_members := by
  unfold createNotification; split <;> rfl

theorem createNotification_rate_entries (db : DB) (t : Nat) (k : String) :
    (createNotification db t k).rate_entries = db.rate_entries := by
  unfold createNotification; split <;> rfl

theorem updateInvitationLimit_team_invitations (db : DB) (u d t : Nat) :
    (updateInvitationLimit db u d t).team_invitations = db.team_invitations := by
  unfold updateInvitationLimit; split <;> rfl

theorem updateInvitationLimit_team_members (db : DB) (u d t : Nat) :
    (updateInvitationLimit db u d t).team_members = db.team_members := by
  unfold updateInvitationLimit; split <;> rfl

theorem find?_map_of_pred {α : Type} (g : α → α) (p : α → Bool) (l : List α)
    (hp : ∀ x, p (g x) = p x) :
    (l.map g).find? p = (l.find? p).map g := by
  induction l with
  | nil => rfl
  | cons x t ih =>
    cases hx : p x with
    | true => simp [List.find?_cons, hp x, hx]
    | false => simpa [List.find?_cons, hp x, hx] using ih

theorem findInvitation_setStatus (db : DB) (invId : Nat) (s : InvStatus) :
    findInvitation (setInvitationStatus db invId s) invId =
      (findInvitation db invId).map (fun i => { i with status := s }) := by
  unfold findInvitation setInvitationStatus
  show (db.team_invitations.map _).find? _ = _
  rw [find?_map_of_pred _ _ _ (fun x => by by_cases h : x.iid = invId <;> simp [h])]
  cases hfind : db.team_invitations.find? (fun i => decide (i.iid = invId)) with
  | none => rfl
  | some i =>
    have hi := List.find?_some hfind
    simp only [decide_eq_true_eq] at hi
    simp [hi]

def authorizedFor (inv : Invitation) (a : RAction) (uid : Nat) : Bool :=
  match a with
  | RAction.cancel => decide (inv.inviter_id = uid)
  | RAction.accept => decide (inv.invitee_id = uid)
  | RAction.reject => decide (inv.invitee_id = uid)

/-- C9: for an invitation found in the store, a resolve call fails with
PermissionDenied and changes nothing when the acting user is not the invitee
for accept or reject, or not the inviter for cancel. -/
theorem c9_resolve_permission (db : DB) (now userId invId : Nat) (action : RAction)
    (mOk uOk : Bool) (inv : Invitation)
    (hf : findInvitation db invId = some inv)
    (_hs : inv.status = InvStatus.pending)
    (hp : authorizedFor inv action userId = false) :
    resolveInvitation db now userId invId action mOk uOk =
      (ResolveResult.err ResolveError.PermissionDenied, db) := by
  unfold resolveInvitation
  rw [hf]
  cases action with
  | accept =>
    have h2 : inv.invitee_id ≠ userId := by simpa [authorizedFor] using hp
    simp [h2]
  | reject =>
    have h2 : inv.invitee_id ≠ userId := by simpa [authorizedFor] using hp
    simp [h2]
  | cancel =>
    have h2 : inv.inviter_id ≠ userId := by simpa [authorizedFor] using hp
    simp [h2]

/-- Witness for C9: in a concrete store holding one pending invitation from
user 10 to user 20, user 20 (not the inviter) cannot cancel it. -/
theorem c9_resolve_permission_witness :
    authorizedFor invPend RAction.cancel 20 = false ∧
    resolveInvitation dbPend 50 20 1 RAction.cancel true true =
      (ResolveResult.err ResolveError.PermissionDenied, dbPend) :=
  ⟨by decide,
   c9_resolve_permission dbPend 50 20 1 RAction.cancel true true invPend
     (by decide) (by decide) (by decide)⟩

/-- Counterexample for C2: invitation 1 is stored as `accepted`; a resolve
call with action accept by user 10 (the inviter, not the invitee) fails with
PermissionDenied, not with AlreadyResolved or Expired, because the handler
checks permission before the status. -/
theorem c2_counterexample :
    invAcc.status = InvStatus.accepted ∧
    findInvitation dbAcc 1 = some invAcc ∧
    (resolveInvitation dbAcc 50 10 1 RAction.accept true true).1 =
      ResolveResult.err ResolveError.PermissionDenied ∧
    (resolveInvitation dbAcc 50 10 1 RAction.accept true true).1 ≠
      ResolveResult.err (ResolveError.AlreadyResolved InvStatus.accepted) ∧
    (resolveInvitation dbAcc 50 10 1 RAction.accept true true).1 ≠
      ResolveResult.err ResolveError.Expired := by decide

/-- C2 (amended): for every invitation whose stored status is not `pending`,
a resolve call with any action by any acting user fails and changes nothing
(in particular it inserts no membership row); the error is AlreadyResolved
when the acting user is the designated party for the action (invitee for
accept/reject, inviter for cancel) and PermissionDenied otherwise, since the
handler checks permission before the status. -/
theorem c2_resolved_is_terminal (db : DB) (now userId invId : Nat) (action : RAction)
    (mOk uOk : Bool) (inv : Invitation)
    (hf : findInvitation db invId = some inv)
    (hs : inv.status ≠ InvStatus.pending) :
    resolveInvitation db now userId invId action mOk uOk =
      (ResolveResult.err
        (if authorizedFor inv action userId then ResolveError.AlreadyResolved inv.status
         else ResolveError.PermissionDenied), db) := by
  unfold resolveInvitation
  rw [hf]
  cases action with
  | accept =>
    by_cases h2 : inv.invitee_id = userId
    · simp [authorizedFor, h2, hs]
    · simp [authorizedFor, h2]
  | reject =>
    by_cases h2 : inv.invitee_id = userId
    · simp [authorizedFor, h2, hs]
    · simp [authorizedFor, h2]
  | cancel =>
    by_cases h2 : inv.inviter_id = userId
    · simp [authorizedFor, h2, hs]
    · simp [authorizedFor, h2]

/-- Witness for C2 (amended): the invitee's second accept of the already
accepted invitation 1 fails with AlreadyResolved and leaves the store
unchanged. -/
theorem c2_resolved_is_terminal_witness :
    invAcc.status ≠ InvStatus.pending ∧
    resolveInvitation dbAcc 50 20 1 RAction.accept true true =
      (ResolveResult.err
        (if authorizedFor invAcc RAction.accept 20 then ResolveError.AlreadyResolved invAcc.status
         else ResolveError.PermissionDenied), dbAcc) :=
  ⟨by decide,
   c2_resolved_is_terminal dbAcc 50 20 1 RAction.accept true true invAcc
     (by decide) (by decide)⟩

/-- Counterexample for C3: accepting pending invitation 1 with a failing
invitation-status update returns an error, yet the membership row and the
`member_added` notification inserted before the update remain committed —
the accept operation is not atomic. -/
theorem c3_counterexample :
    (resolveInvitation dbPend 50 20 1 RAction.accept true false).1 =
      ResolveResult.err ResolveError.UpdateFailed ∧
    (⟨1, 20, Role.editor⟩ : MemberRow) ∈
      (resolveInvitation dbPend 50 20 1 RAction.accept true false).2.team_members ∧
    (⟨10, "member_added"⟩ : Notification) ∈
      (resolveInvitation dbPend 50 20 1 RAction.accept true false).2.notifications ∧
    dbPend.team_members = [] ∧ dbPend.notifications = [] := by decide

/-- C3 (amended): a resolve call that returns any error other than a failure
of the final invitation-status update commits no membership row and no
notification; but when the status update itself fails on accept, the
membership row and notification inserted before it persist despite the
returned error, so the accept operation is not atomic. -/
theorem c3_no_partial_success_before_update (db : DB) (now userId invId : Nat)
    (action : RAction) (mOk uOk : Bool) (e : ResolveError)
    (h2 : e ≠ ResolveError.UpdateFailed) :
    (resolveInvitation db now userId invId action mOk uOk).1 = ResolveResult.err e →
    (resolveInvitation db now userId invId action mOk uOk).2.team_members = db.team_members ∧
    (resolveInvitation db now userId invId action mOk uOk).2.notifications = db.notifications := by
  unfold resolveInvitation
  cases hfind : findInvitation db invId with
  | none => exact fun _ => ⟨rfl, rfl⟩
  | some inv =>
    repeat' split
    all_goals intro h1
    all_goals simp_all [setInvitationStatus]

/-- Witness for C3 (amended): a resolve of a nonexistent invitation returns
NotFound and commits neither a membership row nor a notification. -/
theorem c3_no_partial_success_witness :
    ResolveError.NotFound ≠ ResolveError.UpdateFailed ∧
    (resolveInvitation dbEmpty 50 20 1 RAction.accept true true).2.team_members =
      dbEmpty.team_members ∧
    (resolveInvitation dbEmpty 50 20 1 RAction.accept true true).2.notifications =
      dbEmpty.notifications :=
  ⟨by decide,
   c3_no_partial_success_before_update dbEmpty 50 20 1 RAction.accept true true
     ResolveError.NotFound (by decide) (by decide)⟩

/-- C4: accepting a pending, unexpired invitation as the invitee (with both
database writes succeeding and the inviter's member_added notifications
enabled) succeeds, persists a membership row with the invitation's team,
invitee and requested role, transitions the invitation to accepted, and
emits a member_added notification targeting the inviter. -/
theorem c4_accept_postcondition (db : DB) (now invId : Nat) (inv : Invitation)
    (hf : findInvitation db invId = some inv)
    (hs : inv.status = InvStatus.pending)
    (hexp : ¬ inv.expires_at < now)
    (hn : notifEnabled db inv.inviter_id "member_added" = true) :
    (resolveInvitation db now inv.invitee_id invId RAction.accept true true).1 =
      ResolveResult.ok RAction.accept ∧
    (⟨inv.team_id, inv.invitee_id, inv.role⟩ : MemberRow) ∈
      (resolveInvitation db now inv.invitee_id invId RAction.accept true true).2.team_members ∧
    findInvitation
      (resolveInvitation db now inv.invitee_id invId RAction.accept true true).2 invId =
      some { inv with status := InvStatus.accepted } ∧
    (⟨inv.inviter_id, "member_added"⟩ : Notification) ∈
      (resolveInvitation db now inv.invitee_id invId RAction.accept true true).2.notifications := by
  have hres : resolveInvitation db now inv.invitee_id invId RAction.accept true true =
      (ResolveResult.ok RAction.accept,
       setInvitationStatus
         (createNotification
           { db with team_members :=
               (⟨inv.team_id, inv.invitee_id, inv.role⟩ : MemberRow) :: db.team_members }
           inv.inviter_id "member_added")
         invId InvStatus.accepted) := by
    unfold resolveInvitation
    rw [hf]
    simp [hs, hexp]
  rw [hres]
  refine ⟨rfl, ?_, ?_, ?_⟩
  · show (⟨inv.team_id, inv.invitee_id, inv.role⟩ : MemberRow) ∈
      (setInvitationStatus _ invId InvStatus.accepted).team_members
    rw [show ∀ d : DB, (setInvitationStatus d invId InvStatus.accepted).team_members =
          d.team_members from fun d => rfl,
        createNotification_team_members]
    exact List.mem_cons_self _ _
  · rw [findInvitation_setStatus]
    have h2 : findInvitation
        (createNotification
          { db with team_members :=
              (⟨inv.team_id, inv.invitee_id, inv.role⟩ : MemberRow) :: db.team_members }
          inv.inviter_id "member_added") invId = some inv := by
      unfold findInvitation
      rw [createNotification_team_invitations]
      exact hf
    rw [h2]
    rfl
  · show (⟨inv.inviter_id, "member_added"⟩ : Notification) ∈
      (setInvitationStatus _ invId InvStatus.accepted).notifications
    rw [show ∀ d : DB, (setInvitationStatus d invId InvStatus.accepted).notifications =
          d.notifications from fun d => rfl]
    unfold createNotification
    rw [if_pos (by exact hn)]
    exact List.mem_cons_self _ _

/-- Witness for C4: user 20 accepts pending invitation 1 from user 10 for
team 1 with role editor; the membership row is persisted, the invitation
becomes accepted, and user 10 receives a member_added notification. -/
theorem c4_accept_postcondition_witness :
    invPend.status = InvStatus.pending ∧
    (resolveInvitation dbPend 50 20 1 RAction.accept true true).1 =
      ResolveResult.ok RAction.accept ∧
    (⟨1, 20, Role.editor⟩ : MemberRow) ∈
      (resolveInvitation dbPend 50 20 1 RAction.accept true true).2.team_members ∧
    findInvitation (resolveInvitation dbPend 50 20 1 RAction.accept true true).2 1 =
      some { invPend with status := InvStatus.accepted } ∧
    (⟨10, "member_added"⟩ : Notification) ∈
      (resolveInvitation dbPend 50 20 1 RAction.accept true true).2.notifications :=
  ⟨by decide,
   c4_accept_postcondition dbPend 50 1 invPend (by decide) (by decide) (by decide) (by decide)⟩

/-- Counterexample for C7: invitation 1 is pending with expiry time 40; at
read time 50 the listing path (the GET handler) returns it with status
`pending` and performs no expiry flip, so not every read path treats an
overdue pending invitation as expired. -/
theorem c7_counterexample :
    invOver.status = InvStatus.pending ∧
    invOver.expires_at < 50 ∧
    listInvitations dbOver 20 ListType.received none = [invOver] ∧
    listInvitations dbOver 20 ListType.received (some InvStatus.pending) = [invOver] := by
  decide

/-- C7 (amended): the resolve path eagerly treats an overdue pending
invitation as expired — a resolve call by the designated acting party flips
its stored status to expired, persists that, and fails with Expired — but
the listing path (GET) performs no expiry check and returns overdue pending
invitations with status pending unchanged. -/
theorem c7_resolve_expires_overdue (db : DB) (now userId invId : Nat) (action : RAction)
    (mOk uOk : Bool) (inv : Invitation)
    (hf : findInvitation db invId = some inv)
    (hs : inv.status = InvStatus.pending)
    (hexp : inv.expires_at < now)
    (ha : authorizedFor inv action userId = true) :
    resolveInvitation db now userId invId action mOk uOk =
      (ResolveResult.err ResolveError.Expired,
       setInvitationStatus db invId InvStatus.expired) ∧
    findInvitation (setInvitationStatus db invId InvStatus.expired) invId =
      some { inv with status := InvStatus.expired } := by
  constructor
  · unfold resolveInvitation
    rw [hf]
    cases action with
    | accept =>
      have h2 : inv.invitee_id = userId := by simpa [authorizedFor] using ha
      simp [h2, hs, hexp]
    | reject =>
      have h2 : inv.invitee_id = userId := by simpa [authorizedFor] using ha
      simp [h2, hs, hexp]
    | cancel =>
      have h2 : inv.inviter_id = userId := by simpa [authorizedFor] using ha
      simp [h2, hs, hexp]
  · rw [findInvitation_setStatus, hf]
    rfl

/-- Witness for C7 (amended): at time 50 the invitee's accept of pending
invitation 1 with expiry 40 fails with Expired and persists the expired
status. -/
theorem c7_resolve_expires_overdue_witness :
    invOver.expires_at < 50 ∧
    resolveInvitation dbOver 50 20 1 RAction.accept true true =
      (ResolveResult.err ResolveError.Expired,
       setInvitationStatus dbOver 1 InvStatus.expired) ∧
    findInvitation (setInvitationStatus dbOver 1 InvStatus.expired) 1 =
      some { invOver with status := InvStatus.expired } :=
  ⟨by decide,
   c7_resolve_expires_overdue dbOver 50 20 1 RAction.accept true true invOver
     (by decide) (by decide) (by decide) (by decide)⟩

/-- Counterexample for C5: the add-member endpoint provisions a brand-new
user account for a contact identifier matching no existing account and
immediately inserts a membership for it, so a code path that auto-provisions
an account for an unknown contact does exist. -/
theorem c5_counterexample :
    findUserByEmail dbReady "x@y.z" = none ∧
    (addMember dbReady 1 "x@y.z" Role.editor 99).1 = AddResult.ok 99 ∧
    (addMember dbReady 1 "x@y.z" Role.editor 99).2.user_profiles.map UserProfile.uid =
      [99, 20] ∧
    (addMember dbReady 1 "x@y.z" Role.editor 99).2.user_profiles.map UserProfile.email =
      ["x@y.z", "b@c.d"] ∧
    (⟨1, 99, Role.editor⟩ : MemberRow) ∈
      (addMember dbReady 1 "x@y.z" Role.editor 99).2.team_members := by decide

/-- C5 (amended): the invitation create operation fails with InvalidRecipient
and persists nothing — no invitation, no account, no membership — for a
well-formed contact identifier that matches no existing account; however the
separate add-member endpoint auto-provisions a placeholder account for an
unknown contact and inserts a membership for it. -/
theorem c5_invalid_recipient (db : DB) (today userId teamId : Nat) (email : String)
    (role : Role) (nid exp : Nat)
    (h0 : ¬ teamId = 0) (h1 : ¬ email = "") (hrole : ¬ role = Role.owner)
    (hem : validEmail email = true)
    (hca : canAssignRole db teamId userId role = true)
    (hu : findUserByEmail db email = none) :
    createInvitation db today userId teamId email role nid exp =
      (CreateResult.err CreateError.InvalidRecipient, db) := by
  unfold createInvitation
  rw [hu]
  simp [h0, h1, hrole, hem, hca]

/-- Witness for C5 (amended): inviter 10 (owner of team 1) invites unknown
contact x@y.z; the create operation fails with InvalidRecipient and leaves
the store unchanged. -/
theorem c5_invalid_recipient_witness :
    findUserByEmail dbReady "x@y.z" = none ∧
    createInvitation dbReady 7 10 1 "x@y.z" Role.editor 5 100 =
      (CreateResult.err CreateError.InvalidRecipient, dbReady) :=
  ⟨by decide,
   c5_invalid_recipient dbReady 7 10 1 "x@y.z" Role.editor 5 100
     (by decide) (by decide) (by decide) (by decide) (by decide) (by decide)⟩

/-- Counterexample for C8: the add-member endpoint consults no caller
identity and performs no authorization check — in a store where no user
other than owner 10 may assign the admin role (canAssignRole is false for
the invitee 20 and for the stranger 30), the add-member request nevertheless
inserts a membership row with role admin. -/
theorem c8_counterexample :
    canAssignRole dbReady 1 20 Role.admin = false ∧
    canAssignRole dbReady 1 30 Role.admin = false ∧
    (addMember dbReady 1 "b@c.d" Role.admin 99).1 = AddResult.ok 20 ∧
    (⟨1, 20, Role.admin⟩ : MemberRow) ∈
      (addMember dbReady 1 "b@c.d" Role.admin 99).2.team_members ∧
    dbReady.team_members = [] := by decide

/-- C8 (amended): the invitation create path inserts nothing when the role
authority denies the acting user — it fails with PermissionDenied and leaves
the store unchanged; but the add-member endpoint performs no authentication
or authorization check at all, so any caller can insert a membership row
with an arbitrary role. -/
theorem c8_create_requires_authority (db : DB) (today userId teamId : Nat) (email : String)
    (role : Role) (nid exp : Nat)
    (h0 : ¬ teamId = 0) (h1 : ¬ email = "") (hrole : ¬ role = Role.owner)
    (hem : validEmail email = true)
    (hca : canAssignRole db teamId userId role = false) :
    createInvitation db today userId teamId email role nid exp =
      (CreateResult.err CreateError.PermissionDenied, db) := by
  unfold createInvitation
  simp [h0, h1, hrole, hem, hca]

/-- Witness for C8 (amended): user 20, who holds no role in team 1, cannot
create an invitation assigning the admin role — the create fails with
PermissionDenied and the store is unchanged. -/
theorem c8_create_requires_authority_witness :
    canAssignRole dbReady 1 20 Role.admin = false ∧
    createInvitation dbReady 7 20 1 "b@c.d" Role.admin 5 100 =
      (CreateResult.err CreateError.PermissionDenied, dbReady) :=
  ⟨by decide,
   c8_create_requires_authority dbReady 7 20 1 "b@c.d" Role.admin 5 100
     (by decide) (by decide) (by decide) (by decide) (by decide)⟩

theorem rateTeams_updateInvitationLimit (db : DB) (u d tid : Nat) :
    rateTeams (updateInvitationLimit db u d tid) u d =
      (if tid ∈ rateTeams db u d then rateTeams db u d
       else tid :: rateTeams db u d) := by
  unfold rateTeams updateInvitationLimit
  cases hfind : db.rate_entries.find? (fun r => decide (r.user_id = u ∧ r.day = d)) with
  | none => simp [List.find?_cons]
  | some r =>
    have hmap := find?_map_of_pred
      (fun r : RateEntry =>
        if r.user_id = u ∧ r.day = d then
          { r with teams := if tid ∈ r.teams then r.teams else tid :: r.teams }
        else r)
      (fun r : RateEntry => decide (r.user_id = u ∧ r.day = d))
      db.rate_entries
      (fun x => by by_cases h : x.user_id = u ∧ x.day = d <;> simp [h])
    simp only [hmap, hfind]
    have hr := List.find?_some hfind
    simp only [decide_eq_true_eq] at hr
    simp [hr]

theorem rateTeams_createNotification (db : DB) (t : Nat) (k : String) (u d : Nat) :
    rateTeams (createNotification db t k) u d = rateTeams db u d := by
  unfold rateTeams
  rw [createNotification_rate_entries]

/-- C6 (spec-modelled rate limiting): under the create operation's earlier
preconditions, the create fails with RateLimited exactly when the inviter's
per-day rate state has already reached 2 distinct teams and the requested
team is not among them; and every successful create records the requested
team in the inviter's per-day rate state. -/
theorem c6_rate_limit (db : DB) (today userId teamId : Nat) (email : String)
    (role : Role) (nid exp : Nat) (invitee : UserProfile)
    (h0 : ¬ teamId = 0) (h1 : ¬ email = "") (hrole : ¬ role = Role.owner)
    (hem : validEmail email = true)
    (hca : canAssignRole db teamId userId role = true)
    (hu : findUserByEmail db email = some invitee)
    (hm : findMember db teamId invitee.uid = none)
    (hp : findPendingInvitation db teamId invitee.uid = none) :
    ((createInvitation db today userId teamId email role nid exp).1 =
        CreateResult.err CreateError.RateLimited ↔
      (2 ≤ (rateTeams db userId today).dedup.length ∧
        teamId ∉ rateTeams db userId today)) ∧
    (∀ inv db2,
      createInvitation db today userId teamId email role nid exp =
        (CreateResult.ok inv, db2) →
      rateTeams db2 userId today =
        (if teamId ∈ rateTeams db userId today then rateTeams db userId today
         else teamId :: rateTeams db userId today)) := by
  have hstep : createInvitation db today userId teamId email role nid exp =
      (if ¬ checkInvitationLimit db userId today teamId then
        (CreateResult.err CreateError.RateLimited, db)
      else
        match db.teams.find? (fun t => decide (t.tid = teamId)) with
        | none => (CreateResult.err CreateError.TeamNotFound, db)
        | some _ =>
          let inv : Invitation :=
            ⟨nid, teamId, userId, invitee.uid, email, role, InvStatus.pending, exp⟩
          let db1 := { db with team_invitations := inv :: db.team_invitations }
          let db2 := updateInvitationLimit db1 userId today teamId
          let db3 := createNotification db2 invitee.uid "team_invitation"
          (CreateResult.ok inv, db3)) := by
    unfold createInvitation
    rw [hu]
    simp [h0, h1, hrole, hem, hca, hm, hp]
  constructor
  · rw [hstep]
    by_cases hc : checkInvitationLimit db userId today teamId
    · rw [if_neg (by simpa using hc)]
      unfold checkInvitationLimit at hc
      simp only [decide_eq_true_eq] at hc
      constructor
      · intro hres
        exfalso
        cases hteam : db.teams.find? (fun t => decide (t.tid = teamId)) with
        | none => rw [hteam] at hres; exact absurd hres (by simp)
        | some tm => rw [hteam] at hres; exact absurd hres (by simp)
      · intro hcond
        exfalso
        rcases hc with hlt | hmem
        · omega
        · exact hcond.2 hmem
    · rw [if_pos (by simpa using hc)]
      unfold checkInvitationLimit at hc
      simp only [decide_eq_true_eq, not_or, not_lt] at hc
      simp [hc.1, hc.2]
  · intro inv db2 hres
    rw [hstep] at hres
    by_cases hc : checkInvitationLimit db userId today teamId
    · rw [if_neg (by simpa using hc)] at hres
      cases hteam : db.teams.find? (fun t => decide (t.tid = teamId)) with
      | none => rw [hteam] at hres; exact absurd hres (by simp)
      | some tm =>
        rw [hteam] at hres
        simp only [Prod.mk.injEq] at hres
        rw [← hres.2, rateTeams_createNotification]
        have : rateTeams
            { db with team_invitations :=
                (⟨nid, teamId, userId, invitee.uid, email, role,
                  InvStatus.pending, exp⟩ : Invitation) :: db.team_invitations }
            userId today = rateTeams db userId today := rfl
        rw [rateTeams_updateInvitationLimit, this]
    · rw [if_pos (by simpa using hc)] at hres
      exact absurd hres (by simp)

/-- Witness for C6: user 10 has already invited from teams 1 and 2 on day 7;
a third-team invitation (team 3) fails with RateLimited. -/
theorem c6_rate_limit_witness :
    (2 ≤ (rateTeams dbRate 10 7).dedup.length ∧ 3 ∉ rateTeams dbRate 10 7) ∧
    (createInvitation dbRate 7 10 3 "b@c.d" Role.editor 5 100).1 =
      CreateResult.err CreateError.RateLimited :=
  ⟨by decide,
   ((c6_rate_limit dbRate 7 10 3 "b@c.d" Role.editor 5 100 ⟨20, "b@c.d", "B"⟩
      (by decide) (by decide) (by decide) (by decide) (by decide) (by decide)
      (by decide) (by decide)).1).mpr (by decide)⟩

theorem length_filter_map_le {α : Type} (l : List α) (g : α → α) (p : α → Bool)
    (hp : ∀ x, p (g x) = true → g x = x) :
    ((l.map g).filter p).length ≤ (l.filter p).length := by
  induction l with
  | nil => simp
  | cons x t ih =>
    simp only [List.map_cons, List.filter_cons]
    cases hgx : p (g x) with
    | true =>
      have hx : g x = x := hp x hgx
      rw [hx] at hgx
      simp only [hgx, hx, if_pos, List.length_cons]
      exact Nat.succ_le_succ ih
    | false =>
      by_cases hx : p x = true
      · simp only [hgx, hx, if_pos, Bool.false_eq_true, if_false, List.length_cons]
        exact Nat.le_succ_of_le ih
      · simp only [hgx, Bool.false_eq_true, if_false, eq_false_of_ne_true hx]
        exact ih

theorem pendingCount_congr (d1 d2 : DB)
    (h : d1.team_invitations = d2.team_invitations) (t u : Nat) :
    pendingCount d1 t u = pendingCount d2 t u := by
  unfold pendingCount pendingFor
  rw [h]

theorem pendingCount_setStatus_le (d db : DB)
    (h : d.team_invitations = db.team_invitations) (invId : Nat) (s : InvStatus)
    (hs : s ≠ InvStatus.pending) (t u : Nat) :
    pendingCount (setInvitationStatus d invId s) t u ≤ pendingCount db t u := by
  unfold pendingCount pendingFor setInvitationStatus
  show ((d.team_invitations.map _).filter _).length ≤ _
  rw [h]
  apply length_filter_map_le
  intro x hx
  by_cases hid : x.iid = invId
  · exfalso
    rw [if_pos hid] at hx
    simp only [decide_eq_true_eq] at hx
    exact hs hx.2.2
  · rw [if_neg hid]

theorem resolve_pendingCount_le (db : DB) (now userId invId : Nat) (action : RAction)
    (mOk uOk : Bool) (t u : Nat) :
    pendingCount (resolveInvitation db now userId invId action mOk uOk).2 t u ≤
      pendingCount db t u := by
  unfold resolveInvitation
  cases hfind : findInvitation db invId with
  | none => exact le_refl _
  | some inv =>
    repeat' split
    all_goals
      first
      | exact le_refl _
      | exact pendingCount_setStatus_le _ db
          (by first | rfl | rw [createNotification_team_invitations]) invId _
          (by decide) t u
      | exact le_of_eq (pendingCount_congr _ db
          (by rw [createNotification_team_invitations]) t u)

theorem del_pendingCount_le (db : DB) (userId invId : Nat) (t u : Nat) :
    pendingCount (deleteInvitation db userId invId).2 t u ≤ pendingCount db t u := by
  unfold deleteInvitation
  cases hfind : findInvitation db invId with
  | none =>
    split
    · exact le_refl _
    · exact le_refl _
  | some inv =>
    repeat' split
    all_goals
      first
      | exact le_refl _
      | exact List.Sublist.length_le
          (List.Sublist.filter _ (List.filter_sublist db.team_invitations))

theorem add_team_invitations (db : DB) (teamId : Nat) (email : String) (role : Role)
    (nid : Nat) :
    ((addMember db teamId email role nid).2).team_invitations = db.team_invitations := by
  unfold addMember
  split
  · rfl
  · split
    · rfl
    · cases hfound : findUserByEmail db email <;> simp only [hfound] <;> split <;> rfl

theorem insert_pending_le (db : DB) (teamId inviteeId : Nat) (inv : Invitation)
    (hteam : inv.team_id = teamId) (hinvitee : inv.invitee_id = inviteeId)
    (hnone : findPendingInvitation db teamId inviteeId = none)
    (h : ∀ t u, pendingCount db t u ≤ 1) (t u : Nat) :
    pendingCount { db with team_invitations := inv :: db.team_invitations } t u ≤ 1 := by
  unfold pendingCount pendingFor
  simp only [List.filter_cons]
  by_cases hp : decide (inv.team_id = t ∧ inv.invitee_id = u ∧
      inv.status = InvStatus.pending) = true
  · simp only [hp, if_pos, List.length_cons]
    simp only [decide_eq_true_eq] at hp
    obtain ⟨h1, h2, _⟩ := hp
    have hnil : db.team_invitations.filter (fun i =>
        decide (i.team_id = t ∧ i.invitee_id = u ∧
          i.status = InvStatus.pending)) = [] := by
      rw [List.filter_eq_nil_iff]
      intro x hx
      have hfx := List.find?_eq_none.mp hnone x hx
      have ht : teamId = t := hteam ▸ h1
      have hu2 : inviteeId = u := hinvitee ▸ h2
      rw [← ht, ← hu2]
      exact hfx
    rw [hnil]
    simp
  · simp only [eq_false_of_ne_true hp, Bool.false_eq_true, if_false]
    have := h t u
    unfold pendingCount pendingFor at this
    exact this

theorem create_pendingCount_le (db : DB) (today userId teamId : Nat) (email : String)
    (role : Role) (nid exp : Nat) (h : ∀ t u, pendingCount db t u ≤ 1) (t u : Nat) :
    pendingCount (createInvitation db today userId teamId email role nid exp).2 t u ≤ 1 := by
  unfold createInvitation
  repeat' split
  all_goals try exact h t u
  rename_i invitee hequ hmem hpend hrate a b c
  have hnone : findPendingInvitation db teamId invitee.uid = none :=
    Option.not_isSome_iff_eq_none.mp (by simpa using hpend)
  have hinv : pendingCount
      (createNotification
        (updateInvitationLimit
          { db with team_invitations :=
              (⟨nid, teamId, userId, invitee.uid, email, role,
                InvStatus.pending, exp⟩ : Invitation) :: db.team_invitations }
          userId today teamId)
        invitee.uid "team_invitation") t u =
      pendingCount
        { db with team_invitations :=
            (⟨nid, teamId, userId, invitee.uid, email, role,
              InvStatus.pending, exp⟩ : Invitation) :: db.team_invitations } t u := by
    apply pendingCount_congr
    rw [createNotification_team_invitations, updateInvitationLimit_team_invitations]
  rw [hinv]
  exact insert_pending_le db teamId invitee.uid _ rfl rfl hnone h t u

theorem atMostOnePendingB_spec (db : DB) (h : atMostOnePendingB db = true) :
    ∀ t u, pendingCount db t u ≤ 1 := by
  intro t u
  unfold atMostOnePendingB at h
  cases hl : pendingFor db t u with
  | nil => simp [pendingCount, hl]
  | cons i rest =>
    have hi : i ∈ pendingFor db t u := hl ▸ List.mem_cons_self i rest
    have him := List.mem_filter.mp hi
    have hpred := him.2
    simp only [decide_eq_true_eq] at hpred
    obtain ⟨h1, h2, h3⟩ := hpred
    have hall := List.all_eq_true.mp h i him.1
    simp [h1, h2, h3] at hall
    exact hall

theorem pending_inv_step (db : DB) (op : Op) (h : ∀ t u, pendingCount db t u ≤ 1) :
    ∀ t u, pendingCount (applyOp db op) t u ≤ 1 := by
  intro t u
  cases op with
  | create a b c d e f g => exact create_pendingCount_le db a b c d e f g h t u
  | resolve a b c d e f => exact le_trans (resolve_pendingCount_le db a b c d e f t u) (h t u)
  | del a b => exact le_trans (del_pendingCount_le db a b t u) (h t u)
  | add a b c d =>
    have he : pendingCount (addMember db a b c d).2 t u = pendingCount db t u :=
      pendingCount_congr _ db (add_team_invitations db a b c d) t u
    exact le_trans (le_of_eq he) (h t u)

theorem pending_inv_runOps (db : DB) (ops : List Op) (h : ∀ t u, pendingCount db t u ≤ 1) :
    ∀ t u, pendingCount (runOps db ops) t u ≤ 1 := by
  induction ops generalizing db with
  | nil => exact h
  | cons op rest ih => exact ih (applyOp db op) (pending_inv_step db op h)

/-- C1: at most one pending invitation ever exists per (team, invitee) pair.
The create operation fails with DuplicatePending and persists nothing when,
with all earlier guards passing, a pending invitation for the pair already
exists; and starting from any store satisfying the at-most-one-pending
invariant, no sequence of create, resolve, delete or add-member operations
ever produces two simultaneously pending invitations for one pair. -/
theorem c1_pending_unique :
    (∀ (db : DB) (today userId teamId : Nat) (email : String) (role : Role)
      (nid exp : Nat) (invitee : UserProfile),
      ¬ teamId = 0 → ¬ email = "" → ¬ role = Role.owner → validEmail email = true →
      canAssignRole db teamId userId role = true →
      findUserByEmail db email = some invitee →
      findMember db teamId invitee.uid = none →
      (findPendingInvitation db teamId invitee.uid).isSome = true →
      createInvitation db today userId teamId email role nid exp =
        (CreateResult.err CreateError.DuplicatePending, db)) ∧
    (∀ (db : DB) (ops : List Op), atMostOnePendingB db = true →
      ∀ t u, pendingCount (runOps db ops) t u ≤ 1) := by
  constructor
  · intro db today userId teamId email role nid exp invitee h0 h1 hrole hem hca hu hm hp
    unfold createInvitation
    rw [hu]
    simp [h0, h1, hrole, hem, hca, hm, hp]
  · intro db ops hB
    exact pending_inv_runOps db ops (atMostOnePendingB_spec db hB)

def opsW : List Op :=
  [Op.create 7 10 1 "b@c.d" Role.editor 1 100, Op.resolve 50 20 1 RAction.accept true true]

/-- Witness for C1: from the concrete store with one user and one team, the
sequence invite-then-accept keeps at most one pending invitation for the
pair (team 1, user 20); and a second create while invitation 1 is still
pending fails with DuplicatePending and changes nothing. -/
theorem c1_pending_unique_witness :
    atMostOnePendingB dbReady = true ∧
    pendingCount (runOps dbReady opsW) 1 20 ≤ 1 ∧
    createInvitation dbPend 7 10 1 "b@c.d" Role.editor 2 100 =
      (CreateResult.err CreateError.DuplicatePending, dbPend) :=
  ⟨by decide,
   c1_pending_unique.2 dbReady opsW (by decide) 1 20,
   c1_pending_unique.1 dbPend 7 10 1 "b@c.d" Role.editor 2 100 ⟨20, "b@c.d", "B"⟩
     (by decide) (by decide) (by decide) (by decide) (by decide) (by decide)
     (by decide) (by decide)⟩

theorem find?_setAssoc_ne (l : List (Nat × Bool)) (k k2 : Nat) (v : Bool) (hkk : ¬ k = k2) :
    (setAssoc l k2 v).find? (fun p => decide (p.1 = k)) =
      l.find? (fun p => decide (p.1 = k)) := by
  unfold setAssoc
  split
  · rw [find?_map_of_pred _ _ _ (fun x => by by_cases hx : x.1 = k2 <;> simp [hx])]
    cases hfind : l.find? (fun p => decide (p.1 = k)) with
    | none => rfl
    | some e =>
      have he := List.find?_some hfind
      simp only [decide_eq_true_eq] at he
      rw [Option.map_some']
      rw [if_neg (by rw [he]; exact hkk)]
  · rw [List.find?_cons_of_neg]
    simp only [decide_eq_true_eq]
    exact fun h => hkk h.symm

theorem lookupTyping_setAssoc_ne (l : List (Nat × Bool)) (k k2 : Nat) (v : Bool)
    (hkk : ¬ k = k2) :
    lookupTyping (setAssoc l k2 v) k = lookupTyping l k := by
  unfold lookupTyping
  rw [find?_setAssoc_ne l k k2 v hkk]

theorem lookupTyping_setAssoc_self_false (l : List (Nat × Bool)) (k : Nat) :
    lookupTyping (setAssoc l k false) k = false := by
  unfold lookupTyping setAssoc
  split
  · rw [find?_map_of_pred _ _ _ (fun x => by by_cases hx : x.1 = k <;> simp [hx])]
    cases hfind : l.find? (fun p => decide (p.1 = k)) with
    | none => rfl
    | some e =>
      have he := List.find?_some hfind
      simp only [decide_eq_true_eq] at he
      simp [he]
  · rw [List.find?_cons_of_pos _ (by simp)]
    rfl

theorem lookupTyping_setAssoc_false_of_false (l : List (Nat × Bool)) (k k2 : Nat)
    (h : lookupTyping l k = false) :
    lookupTyping (setAssoc l k2 false) k = false := by
  by_cases hkk : k = k2
  · subst hkk
    exact lookupTyping_setAssoc_self_false l k
  · rw [lookupTyping_setAssoc_ne l k k2 false hkk]
    exact h

theorem lookupTyping_foldl_false (ks : List Nat) (l : List (Nat × Bool)) (k : Nat)
    (h : k ∈ ks ∨ lookupTyping l k = false) :
    lookupTyping (ks.foldl (fun acc x => setAssoc acc x false) l) k = false := by
  induction ks generalizing l with
  | nil =>
    rcases h with h | h
    · cases h
    · exact h
  | cons x rest ih =>
    apply ih
    rcases h with h | h
    · rcases List.mem_cons.mp h with h | h
      · subst h
        exact Or.inr (lookupTyping_setAssoc_self_false l k)
      · exact Or.inl h
    · exact Or.inr (lookupTyping_setAssoc_false_of_false l k x h)

theorem timerFind_clearTimer_ne (ts : List TypingTimer) (s k : Nat) (hks : ¬ k = s) :
    (clearTimer ts s).find? (fun t => decide (t.sender = k)) =
      ts.find? (fun t => decide (t.sender = k)) := by
  unfold clearTimer
  rw [find?_map_of_pred _ _ _ (fun x => by by_cases hx : x.sender = s <;> simp [hx])]
  cases hfind : ts.find? (fun t => decide (t.sender = k)) with
  | none => rfl
  | some e =>
    have he := List.find?_some hfind
    simp only [decide_eq_true_eq] at he
    rw [Option.map_some']
    rw [if_neg (by rw [he]; exact hks)]

theorem timerFind_setTimer_ne (ts : List TypingTimer) (s fa k : Nat) (hks : ¬ k = s) :
    (setTimer ts s fa).find? (fun t => decide (t.sender = k)) =
      ts.find? (fun t => decide (t.sender = k)) := by
  unfold setTimer
  split
  · rw [find?_map_of_pred _ _ _ (fun x => by by_cases hx : x.sender = s <;> simp [hx])]
    cases hfind : ts.find? (fun t => decide (t.sender = k)) with
    | none => rfl
    | some e =>
      have he := List.find?_some hfind
      simp only [decide_eq_true_eq] at he
      rw [Option.map_some']
      rw [if_neg (by rw [he]; exact hks)]
  · rw [List.find?_cons_of_neg]
    simp only [decide_eq_true_eq]
    exact fun h => hks h.symm

theorem timerFind_setTimer_self (ts : List TypingTimer) (k fa : Nat) :
    (setTimer ts k fa).find? (fun t => decide (t.sender = k)) =
      some (⟨k, fa, true⟩ : TypingTimer) := by
  unfold setTimer
  split
  · rename_i hex
    rw [find?_map_of_pred _ _ _ (fun x => by by_cases hx : x.sender = k <;> simp [hx])]
    cases hfind : ts.find? (fun t => decide (t.sender = k)) with
    | none =>
      exfalso
      rcases List.any_eq_true.mp hex with ⟨x, hx, hpx⟩
      exact absurd hpx (List.find?_eq_none.mp hfind x hx)
    | some e =>
      have he := List.find?_some hfind
      simp only [decide_eq_true_eq] at he
      rw [Option.map_some']
      rw [if_pos he]
  · rw [List.find?_cons_of_pos _ (by simp)]

def typingInv (st : ChatClient) (X dl : Nat) : Prop :=
  getTyping st X = false ∨ timerFor st X = some (⟨X, dl, true⟩ : TypingTimer)

theorem mem_dueSenders (st : ChatClient) (X dl now : Nat)
    (h : timerFor st X = some (⟨X, dl, true⟩ : TypingTimer)) (hdl : dl ≤ now) :
    X ∈ dueSenders st now := by
  unfold dueSenders
  have hm : (⟨X, dl, true⟩ : TypingTimer) ∈ st.timers := List.mem_of_find?_eq_some h
  have hf : (⟨X, dl, true⟩ : TypingTimer) ∈
      st.timers.filter (fun t => t.pending && decide (t.fireAt ≤ now)) := by
    rw [List.mem_filter]
    exact ⟨hm, by simp [hdl]⟩
  exact List.mem_map.mpr ⟨⟨X, dl, true⟩, hf, rfl⟩

theorem typingInv_fireDue (st : ChatClient) (X dl τ : Nat) (h : typingInv st X dl) :
    typingInv (fireDue st τ) X dl := by
  rcases h with h | h
  · left
    exact lookupTyping_foldl_false _ _ _ (Or.inr h)
  · by_cases hdl : dl ≤ τ
    · left
      exact lookupTyping_foldl_false _ _ _ (Or.inl (mem_dueSenders st X dl τ h hdl))
    · right
      show (st.timers.map _).find? _ = _
      rw [find?_map_of_pred _ _ _
        (fun x => by by_cases hx : x.pending ∧ x.fireAt ≤ τ <;> simp [hx])]
      rw [show st.timers.find? (fun t => decide (t.sender = X)) =
            some (⟨X, dl, true⟩ : TypingTimer) from h]
      rw [Option.map_some']
      rw [if_neg (by simp [hdl])]

theorem typingInv_handleTyping (st : ChatClient) (X dl tid s now : Nat) (b : Bool)
    (hs : ¬ X = s) (h : typingInv st X dl) :
    typingInv (handleTyping st tid s b now) X dl := by
  unfold handleTyping
  split
  · rcases h with h | h
    · left
      show lookupTyping (setAssoc st.typing s b) X = false
      rw [lookupTyping_setAssoc_ne _ _ _ _ hs]
      exact h
    · right
      show (if b then setTimer (clearTimer st.timers s) s (now + 3000)
            else clearTimer st.timers s).find? _ = _
      cases b with
      | true =>
        rw [if_pos rfl, timerFind_setTimer_ne _ _ _ _ hs, timerFind_clearTimer_ne _ _ _ hs]
        exact h
      | false =>
        rw [if_neg (by simp), timerFind_clearTimer_ne _ _ _ hs]
        exact h
  · exact h

theorem typingInv_handleNewMessage (st : ChatClient) (X dl tid s now : Nat)
    (hs : ¬ X = s) (h : typingInv st X dl) :
    typingInv (handleNewMessage st tid s now) X dl := by
  unfold handleNewMessage
  split
  · split
    · rcases h with h | h
      · left
        show lookupTyping (setAssoc st.typing s false) X = false
        rw [lookupTyping_setAssoc_ne _ _ _ _ hs]
        exact h
      · right
        show (clearTimer st.timers s).find? _ = _
        rw [timerFind_clearTimer_ne _ _ _ hs]
        exact h
    · exact h
  · exact h

theorem typingInv_stepEvent (st : ChatClient) (X dl : Nat) (e : CEvent)
    (hs : ¬ eventSender e = X) (h : typingInv st X dl) :
    typingInv (stepEvent st e) X dl := by
  cases e with
  | typingSig tid s b t =>
    exact typingInv_handleTyping (fireDue st t) X dl tid s t b
      (fun hx => hs (by simpa [eventSender] using hx.symm))
      (typingInv_fireDue st X dl t h)
  | message tid s t =>
    exact typingInv_handleNewMessage (fireDue st t) X dl tid s t
      (fun hx => hs (by simpa [eventSender] using hx.symm))
      (typingInv_fireDue st X dl t h)

theorem typingInv_runEvents (st : ChatClient) (X dl : Nat) (evs : List CEvent)
    (hs : ∀ e ∈ evs, ¬ eventSender e = X) (h : typingInv st X dl) :
    typingInv (runEvents st evs) X dl := by
  induction evs generalizing st with
  | nil => exact h
  | cons e rest ih =>
    exact ih (stepEvent st e) (fun x hx => hs x (List.mem_cons_of_mem e hx))
      (typingInv_stepEvent st X dl e (hs e (List.mem_cons_self e rest)) h)

theorem observeTyping_false_of_inv (st : ChatClient) (X dl t : Nat)
    (h : typingInv st X dl) (ht : dl ≤ t) :
    observeTyping st t X = false := by
  unfold observeTyping getTyping
  rcases h with h | h
  · exact lookupTyping_foldl_false _ _ _ (Or.inr h)
  · exact lookupTyping_foldl_false _ _ _ (Or.inl (mem_dueSenders st X dl t h ht))

theorem typingInv_after_signal (st : ChatClient) (X t0 : Nat) (hx : ¬ X = st.selfId) :
    typingInv (stepEvent st (CEvent.typingSig st.room X true t0)) X (t0 + 3000) := by
  right
  show (handleTyping (fireDue st t0) st.room X true t0).timers.find? _ = _
  unfold handleTyping
  rw [if_pos ⟨rfl, hx⟩]
  exact timerFind_setTimer_self _ X (t0 + 3000)

/-- C10: when user X signals typing true in the client's room at time t0 and
then stays silent — every later delivered event has a different sender — any
observation at or after t0 + 3000 milliseconds sees X's typing state as
false, with no explicit stop signal: the receiving side's per-sender 3
second timeout (reset by newer signals from the same sender) clears it. -/
theorem c10_typing_expiry (st : ChatClient) (X t0 t : Nat) (evs : List CEvent)
    (hx : ¬ X = st.selfId)
    (hsil : ∀ e ∈ evs, ¬ eventSender e = X)
    (ht : t0 + 3000 ≤ t) :
    observeTyping
      (runEvents (stepEvent st (CEvent.typingSig st.room X true t0)) evs) t X = false :=
  observeTyping_false_of_inv _ X (t0 + 3000) t
    (typingInv_runEvents _ X (t0 + 3000) evs hsil (typingInv_after_signal st X t0 hx))
    ht

/-- Witness for C10: in a fresh client for room 1 owned by user 5, a typing
signal from user 7 at time 1000 followed only by another user's signal is
observed as not typing at time 4001. -/
theorem c10_typing_expiry_witness :
    observeTyping
      (runEvents
        (stepEvent (⟨1, 5, [], [], []⟩ : ChatClient) (CEvent.typingSig 1 7 true 1000))
        [CEvent.typingSig 1 9 true 1200]) 4001 7 = false :=
  c10_typing_expiry (⟨1, 5, [], [], []⟩ : ChatClient) 7 1000 4001
    [CEvent.typingSig 1 9 true 1200] (by decide) (by decide) (by decide)
